import Mathlib

/-!
Shallow embedding of the TrueType glyph-decoding pipeline of `src/main.rs`:
the byte-cursor reads (`byteorder::ReadBytesExt` over `Cursor<Vec<u8>>`),
simple-glyph decoding (`get_coordinates`, `GlyphData::from_cursor`) and the
font assembly (`Font::read_truetype`).

Conventions of the embedding:
* a byte buffer is a `List Nat`; every read normalises the entry with `% 256`,
  so the model coincides with the Rust code on genuine byte buffers;
* each multi-byte read is big-endian and returns the decoded value together
  with the cursor position after the read; it returns `none` when the read
  runs past the end of the buffer (Rust `Err` from `ReadBytesExt`);
* machine-integer overflow is modelled with explicit wrap-around
  (`% 2^16`, `% 2^32`, `wrap16` for `i16` accumulation), the release-mode
  Rust semantics;
* `RResult` distinguishes a clean `Err` return (the `anyhow::Result` path)
  from a process abort (`unwrap()` on `None`), which the Rust code can also
  produce; the abort outcome is the constructor `RResult.panicked`.
-/

/-- Source `fn bit_is_set(flag: u8, flag_bit_index: u8) -> bool`,
`((flag >> flag_bit_index) & 1) == 1`. -/
def bit_is_set (flag : Nat) (flag_bit_index : Nat) : Bool :=
  ((flag >>> flag_bit_index) &&& 1) == 1

/-- One byte read, `cursor.read_u8()` (lines 38, 79, 84 of the source). -/
def read_u8 (buf : List Nat) (pos : Nat) : Option (Nat × Nat) :=
  match buf[pos]? with
  | some a => some (a % 256, pos + 1)
  | none => none

/-- Big-endian `u16` read, `cursor.read_u16::<BigEndian>()`. -/
def read_u16 (buf : List Nat) (pos : Nat) : Option (Nat × Nat) :=
  match buf[pos]?, buf[pos + 1]? with
  | some a, some b => some ((a % 256) * 256 + b % 256, pos + 2)
  | _, _ => none

/-- Big-endian `u32` read, `cursor.read_u32::<BigEndian>()`. -/
def read_u32 (buf : List Nat) (pos : Nat) : Option (Nat × Nat) :=
  match buf[pos]?, buf[pos + 1]?, buf[pos + 2]?, buf[pos + 3]? with
  | some a, some b, some c, some d =>
      some ((a % 256) * 16777216 + (b % 256) * 65536 + (c % 256) * 256 + d % 256,
            pos + 4)
  | _, _, _, _ => none

/-- Two's-complement reinterpretation of a 16-bit unsigned value. -/
def toInt16 (v : Nat) : Int :=
  if v < 32768 then (v : Int) else (v : Int) - 65536

/-- Big-endian `i16` read, `cursor.read_i16::<BigEndian>()`. -/
def read_i16 (buf : List Nat) (pos : Nat) : Option (Int × Nat) :=
  match read_u16 buf pos with
  | some (v, p) => some (toInt16 v, p)
  | none => none

/-- Wrap-around of an integer into the `i16` range `[-32768, 32767]`;
this is the effect of `i16` addition in the source. -/
def wrap16 (x : Int) : Int :=
  (x + 32768) % 65536 - 32768

/-- Source `fn get_coordinates` (lines 18-47), written as a recursion over
the flag list; `prev` carries `coords[i-1]` (`0` before the first point).
`coords[i] += sign * (offset as i16)` and `coords[i] += read_i16(..)` are
`i16` additions, hence the `wrap16`. -/
def get_coordinates_aux (buf : List Nat) (is_x : Bool) :
    List Nat → Nat → Int → Option (List Int × Nat)
  | [], pos, _ => some ([], pos)
  | f :: rest, pos, prev =>
    if bit_is_set f (if is_x then 1 else 2) then
      -- short bit set: one unsigned byte, the sign bit picks the direction
      match read_u8 buf pos with
      | none => none
      | some (off, p1) =>
        match get_coordinates_aux buf is_x rest p1
            (wrap16 (prev + (if bit_is_set f (if is_x then 4 else 5) then 1 else -1) * off)) with
        | none => none
        | some (cs, p') =>
          some (wrap16 (prev + (if bit_is_set f (if is_x then 4 else 5) then 1 else -1) * off) :: cs, p')
    else if bit_is_set f (if is_x then 4 else 5) then
      -- short bit clear, same bit set: coordinate repeats, nothing is read
      match get_coordinates_aux buf is_x rest pos prev with
      | none => none
      | some (cs, p') => some (prev :: cs, p')
    else
      -- both clear: signed 16-bit big-endian delta
      match read_i16 buf pos with
      | none => none
      | some (d, p1) =>
        match get_coordinates_aux buf is_x rest p1 (wrap16 (prev + d)) with
        | none => none
        | some (cs, p') => some (wrap16 (prev + d) :: cs, p')

/-- Source `get_coordinates(cursor, flags, is_x)`: the running coordinate
starts at `0` (`coords[i] = if i == 0 { 0 } else { coords[i-1] }`). -/
def get_coordinates (buf : List Nat) (pos : Nat) (flags : List Nat)
    (is_x : Bool) : Option (List Int × Nat) :=
  get_coordinates_aux buf is_x flags pos 0

/-- Per-point delta stream of one axis: the four flag cases of the format
(`+magnitude`, `-magnitude`, `0`, signed 16-bit), reading the same bytes as
`get_coordinates` but before accumulation. -/
def coordDeltas (buf : List Nat) (is_x : Bool) :
    List Nat → Nat → Option (List Int × Nat)
  | [], pos => some ([], pos)
  | f :: rest, pos =>
    if bit_is_set f (if is_x then 1 else 2) then
      match read_u8 buf pos with
      | none => none
      | some (off, p1) =>
        match coordDeltas buf is_x rest p1 with
        | none => none
        | some (ds, p') =>
          some ((if bit_is_set f (if is_x then 4 else 5) then (off : Int) else -(off : Int)) :: ds, p')
    else if bit_is_set f (if is_x then 4 else 5) then
      match coordDeltas buf is_x rest pos with
      | none => none
      | some (ds, p') => some ((0 : Int) :: ds, p')
    else
      match read_i16 buf pos with
      | none => none
      | some (d, p1) =>
        match coordDeltas buf is_x rest p1 with
        | none => none
        | some (ds, p') => some (d :: ds, p')

/-- Running cumulative sum with `i16` wrap-around at every step, starting
from `prev`; entry `k` is the accumulated value after delta `k`. -/
def scanSum (prev : Int) : List Int → List Int
  | [] => []
  | d :: ds => wrap16 (prev + d) :: scanSum (wrap16 (prev + d)) ds

/-- Error kinds of the `anyhow::Result` paths of the source. -/
inductive Err : Type where
  | eof : Err
  | glyphOffsetOutOfRange : Err
  deriving DecidableEq, Repr

/-- Outcome of a Rust call: clean value, clean error, or process abort
(`unwrap()` panic). -/
inductive RResult (α : Type) : Type where
  | ok : α → RResult α
  | err : Err → RResult α
  | panicked : RResult α
  deriving DecidableEq, Repr

/-- Source `struct GlyphData` (lines 48-54). -/
structure GlyphData : Type where
  x_coords : List Int
  y_coords : List Int
  contour_end_indices : List Nat
  is_simple : Bool
  deriving DecidableEq, Repr

/-- Contour-end loop (lines 64-66): `numberOfContours` big-endian `u16`
reads. -/
def readContourEnds (buf : List Nat) (pos : Nat) :
    Nat → Option (List Nat × Nat)
  | 0 => some ([], pos)
  | k + 1 =>
    match read_u16 buf pos with
    | none => none
    | some (v, p1) =>
      match readContourEnds buf p1 k with
      | none => none
      | some (vs, p') => some (v :: vs, p')

/-- Lines 71-72: `read_i16` of the instruction length followed by
`cursor.seek(SeekFrom::Current(num_instructions as i64))` whose `Result` is
dropped — a seek to a negative position fails and leaves the position
unchanged. -/
def skipInstructions (buf : List Nat) (pos : Nat) : Option Nat :=
  match read_i16 buf pos with
  | none => none
  | some (n, p1) =>
    some (if (p1 : Int) + n < 0 then p1 else ((p1 : Int) + n).toNat)

/-- Flag loop (lines 77-91) with explicit fuel so that the definition
evaluates by kernel reduction; `i` is the source's `u16` counter, hence the
`% 65536` on its updates.  Fuel `0` with the loop still running stands for
an impossible state: the wrapper `readFlags` supplies fuel larger than the
number of buffer bytes the loop can still consume. -/
def readFlagsF (buf : List Nat) :
    Nat → Nat → Nat → Nat → Option (List Nat × Nat)
  | 0, pos, i, numPoints =>
    if i < numPoints then none else some ([], pos)
  | fuel + 1, pos, i, numPoints =>
    if i < numPoints then
      match read_u8 buf pos with
      | none => none
      | some (f, p1) =>
        if bit_is_set f 3 then
          match read_u8 buf p1 with
          | none => none
          | some (n, p2) =>
            match readFlagsF buf fuel p2 ((i + n + 1) % 65536) numPoints with
            | none => none
            | some (fs, p') => some (f :: (List.replicate n f ++ fs), p')
        else
          match readFlagsF buf fuel p1 ((i + 1) % 65536) numPoints with
          | none => none
          | some (fs, p') => some (f :: fs, p')
    else some ([], pos)

/-- The flag loop of `GlyphData::from_cursor`: `while i < num_points` reads
a flag byte, and with bit 3 (`REPEAT_FLAG`) set also a count byte `n`,
appending `n` further copies. -/
def readFlags (buf : List Nat) (pos i numPoints : Nat) :
    Option (List Nat × Nat) :=
  readFlagsF buf (buf.length - pos + 1) pos i numPoints

/-- Source `GlyphData::from_cursor` (lines 57-111).  The bounding-box skip
(`seek(Current(8))`) precedes the sign test, as in the source.  The
`contour_end_indices.last().unwrap()` on an empty vector is the `panicked`
outcome. -/
def from_cursor (buf : List Nat) (pos : Nat) : RResult (GlyphData × Nat) :=
  match read_i16 buf pos with
  | none => .err .eof
  | some (n, p1) =>
    if 0 ≤ n then
      match readContourEnds buf (p1 + 8) n.toNat with
      | none => .err .eof
      | some (ends, p3) =>
        match ends.getLast? with
        | none => .panicked
        | some last =>
          match skipInstructions buf p3 with
          | none => .err .eof
          | some p4 =>
            match readFlags buf p4 0 ((last + 1) % 65536) with
            | none => .err .eof
            | some (flags, p5) =>
              match get_coordinates buf p5 flags true with
              | none => .err .eof
              | some (xs, p6) =>
                match get_coordinates buf p6 flags false with
                | none => .err .eof
                | some (ys, p7) =>
                  .ok ({ x_coords := xs, y_coords := ys,
                         contour_end_indices := ends, is_simple := true }, p7)
    else
      .ok ({ x_coords := [], y_coords := [], contour_end_indices := [],
             is_simple := false }, p1 + 8)

/-- One table-directory record: tag bytes, checksum, offset, length. -/
def TableRec : Type := List Nat × Nat × Nat × Nat

instance : DecidableEq TableRec := by
  unfold TableRec
  infer_instance

/-- Four tag bytes read with `read_exact` (line 145). -/
def readTag (buf : List Nat) (pos : Nat) : Option (List Nat) :=
  match buf[pos]?, buf[pos + 1]?, buf[pos + 2]?, buf[pos + 3]? with
  | some a, some b, some c, some d =>
      some [a % 256, b % 256, c % 256, d % 256]
  | _, _, _, _ => none

/-- UTF-8 validity of a byte list, the check behind
`String::from_utf8(buf).unwrap()` (line 146); an invalid tag makes the
source panic. -/
def utf8Valid : List Nat → Bool
  | [] => true
  | b :: rest =>
    if b ≤ 0x7F then utf8Valid rest
    else if 0xC2 ≤ b ∧ b ≤ 0xDF then
      match rest with
      | c1 :: r =>
        if 0x80 ≤ c1 ∧ c1 ≤ 0xBF then utf8Valid r else false
      | _ => false
    else if b = 0xE0 then
      match rest with
      | c1 :: c2 :: r =>
        if (0xA0 ≤ c1 ∧ c1 ≤ 0xBF) ∧ (0x80 ≤ c2 ∧ c2 ≤ 0xBF) then utf8Valid r
        else false
      | _ => false
    else if (0xE1 ≤ b ∧ b ≤ 0xEC) ∨ b = 0xEE ∨ b = 0xEF then
      match rest with
      | c1 :: c2 :: r =>
        if (0x80 ≤ c1 ∧ c1 ≤ 0xBF) ∧ (0x80 ≤ c2 ∧ c2 ≤ 0xBF) then utf8Valid r
        else false
      | _ => false
    else if b = 0xED then
      match rest with
      | c1 :: c2 :: r =>
        if (0x80 ≤ c1 ∧ c1 ≤ 0x9F) ∧ (0x80 ≤ c2 ∧ c2 ≤ 0xBF) then utf8Valid r
        else false
      | _ => false
    else if b = 0xF0 then
      match rest with
      | c1 :: c2 :: c3 :: r =>
        if (0x90 ≤ c1 ∧ c1 ≤ 0xBF) ∧ (0x80 ≤ c2 ∧ c2 ≤ 0xBF) ∧
            (0x80 ≤ c3 ∧ c3 ≤ 0xBF) then utf8Valid r
        else false
      | _ => false
    else if 0xF1 ≤ b ∧ b ≤ 0xF3 then
      match rest with
      | c1 :: c2 :: c3 :: r =>
        if (0x80 ≤ c1 ∧ c1 ≤ 0xBF) ∧ (0x80 ≤ c2 ∧ c2 ≤ 0xBF) ∧
            (0x80 ≤ c3 ∧ c3 ≤ 0xBF) then utf8Valid r
        else false
      | _ => false
    else if b = 0xF4 then
      match rest with
      | c1 :: c2 :: c3 :: r =>
        if (0x80 ≤ c1 ∧ c1 ≤ 0x8F) ∧ (0x80 ≤ c2 ∧ c2 ≤ 0xBF) ∧
            (0x80 ≤ c3 ∧ c3 ≤ 0xBF) then utf8Valid r
        else false
      | _ => false
    else false

/-- Table-directory loop (lines 142-154).  `HashMap::insert` overwrites, so
records are prepended to the accumulator and `lookupTable` takes the first
match (last write wins). -/
def parseTables (buf : List Nat) :
    Nat → Nat → List TableRec → RResult (List TableRec × Nat)
  | pos, 0, acc => .ok (acc, pos)
  | pos, k + 1, acc =>
    match readTag buf pos with
    | none => .err .eof
    | some tag =>
      if utf8Valid tag then
        match read_u32 buf (pos + 4) with
        | none => .err .eof
        | some (check_sum, p1) =>
          match read_u32 buf p1 with
          | none => .err .eof
          | some (offset, p2) =>
            match read_u32 buf p2 with
            | none => .err .eof
            | some (length, p3) =>
              parseTables buf p3 k ((tag, check_sum, offset, length) :: acc)
      else .panicked

/-- `tables.get(tag)` over the accumulated directory records. -/
def lookupTable : List TableRec → List Nat → Option (Nat × Nat × Nat)
  | [], _ => none
  | (t, v) :: rest, tag => if t = tag then some v else lookupTable rest tag

/-- Tag bytes of "maxp". -/
def maxpTag : List Nat := [109, 97, 120, 112]

/-- Tag bytes of "head". -/
def headTag : List Nat := [104, 101, 97, 100]

/-- Tag bytes of "loca". -/
def locaTag : List Nat := [108, 111, 99, 97]

/-- Tag bytes of "glyf". -/
def glyfTag : List Nat := [103, 108, 121, 102]

/-- Resolution of one `loca` entry (lines 177-188): read the entry at
`loca_base + i * width`, double it in the 2-byte format, and add the `glyf`
table offset with `u32` wrap-around. -/
def resolvedOffset (buf : List Nat) (locaOff glyfOff : Nat)
    (twoByte : Bool) (i : Nat) : Option Nat :=
  match
    (if twoByte then
      match read_u16 buf (locaOff + i * 2) with
      | none => none
      | some (v, p) => some (v * 2, p)
    else read_u32 buf (locaOff + i * 4)) with
  | none => none
  | some (gso, _) => some ((glyfOff + gso) % 4294967296)

/-- One iteration of the glyph-location loop (lines 176-195): the bound
check `glyph_offset as usize > file_len` rejects the offset with the
`GlyphOffsetOutOfRange` error. -/
def locateGlyph (buf : List Nat) (locaOff glyfOff : Nat)
    (twoByte : Bool) (i : Nat) : RResult Nat :=
  match resolvedOffset buf locaOff glyfOff twoByte i with
  | none => .err .eof
  | some off => if buf.length < off then .err .glyphOffsetOutOfRange else .ok off

/-- Glyph-location loop over indices `i, i+1, ...` with `remaining` entries
still to resolve; the first failure aborts the whole loop, as in the
source. -/
def glyphLocationsAux (buf : List Nat) (locaOff glyfOff : Nat)
    (twoByte : Bool) : Nat → Nat → RResult (List Nat)
  | 0, _ => .ok []
  | k + 1, i =>
    match locateGlyph buf locaOff glyfOff twoByte i with
    | .err e => .err e
    | .panicked => .panicked
    | .ok off =>
      match glyphLocationsAux buf locaOff glyfOff twoByte k (i + 1) with
      | .err e => .err e
      | .panicked => .panicked
      | .ok rest => .ok (off :: rest)

/-- `glyph_locations` for indices `0 .. numGlyphs`. -/
def glyphLocations (buf : List Nat) (locaOff glyfOff : Nat)
    (twoByte : Bool) (numGlyphs : Nat) : RResult (List Nat) :=
  glyphLocationsAux buf locaOff glyfOff twoByte numGlyphs 0

/-- Decode loop (lines 198-210): a failed glyph decode is only printed and
pushes nothing, so the output list keeps only the successful decodes; a
panic inside `from_cursor` aborts the process. -/
def decodeAll (buf : List Nat) : List Nat → RResult (List GlyphData)
  | [] => .ok []
  | loc :: rest =>
    match from_cursor buf loc with
    | .panicked => .panicked
    | .err _ => decodeAll buf rest
    | .ok (gd, _) =>
      match decodeAll buf rest with
      | .panicked => .panicked
      | .err e => .err e
      | .ok gds => .ok (gd :: gds)

/-- Source `struct Font` (the `cursor` field, the raw buffer, is left
implicit). -/
structure Font : Type where
  tables : List TableRec
  glyph_data : List GlyphData
  deriving DecidableEq

/-- Source `Font::read_truetype` (lines 130-225) on an already-loaded byte
buffer: header, table directory, `maxp`/`head`/`loca`/`glyf` lookups (each
`unwrap` a potential panic), glyph location, decode loop.
`(head_table_offset + 50)` is a `u32` addition, hence its wrap. -/
def read_truetype (buf : List Nat) : RResult Font :=
  match read_u16 buf 4 with
  | none => .err .eof
  | some (numTables, _) =>
    match parseTables buf 12 numTables [] with
    | .err e => .err e
    | .panicked => .panicked
    | .ok (tables, _) =>
      match lookupTable tables maxpTag with
      | none => .panicked
      | some (_, maxpOff, _) =>
        match read_u16 buf (maxpOff + 4) with
        | none => .err .eof
        | some (numGlyphs, _) =>
          match lookupTable tables headTag with
          | none => .panicked
          | some (_, headOff, _) =>
            match read_i16 buf ((headOff + 50) % 4294967296) with
            | none => .err .eof
            | some (fmt, _) =>
              match lookupTable tables locaTag with
              | none => .panicked
              | some (_, locaOff, _) =>
                match lookupTable tables glyfTag with
                | none => .panicked
                | some (_, glyfOff, _) =>
                  match glyphLocations buf locaOff glyfOff (fmt == 0) numGlyphs with
                  | .err e => .err e
                  | .panicked => .panicked
                  | .ok locs =>
                    match decodeAll buf locs with
                    | .err e => .err e
                    | .panicked => .panicked
                    | .ok gds => .ok { tables := tables, glyph_data := gds }

/-- Number of decoded glyphs the caller receives, when construction
succeeds. -/
def glyphCountOf : RResult Font → Option Nat
  | .ok f => some f.glyph_data.length
  | _ => none

/-- A 136-byte font: 4 directory entries ("maxp" at 76 with numGlyphs = 1,
"head" at 82 with indexToLocFormat = 0 at byte 132, "loca" at 134 with the
single 2-byte entry 0, "glyf" at 136), so glyph 0 resolves to offset 136 =
buffer length and its decode fails with an end-of-file read error. -/
def fontBufC8 : List Nat :=
  [0, 0, 0, 0, 0, 4, 0, 0, 0, 0, 0, 0,
   109, 97, 120, 112, 0, 0, 0, 0, 0, 0, 0, 76, 0, 0, 0, 0,
   104, 101, 97, 100, 0, 0, 0, 0, 0, 0, 0, 82, 0, 0, 0, 0,
   108, 111, 99, 97, 0, 0, 0, 0, 0, 0, 0, 134, 0, 0, 0, 0,
   103, 108, 121, 102, 0, 0, 0, 0, 0, 0, 0, 136, 0, 0, 0, 0,
   0, 0, 0, 0, 0, 1,
   0, 0, 0, 0, 0, 0, 0, 0, 0, 0, 0, 0, 0, 0, 0, 0, 0, 0, 0, 0, 0, 0, 0, 0, 0,
   0, 0, 0, 0, 0, 0, 0, 0, 0, 0, 0, 0, 0, 0, 0, 0, 0, 0, 0, 0, 0, 0, 0, 0, 0,
   0, 0,
   0, 0]

/-- Wrapping into the `i16` range is idempotent. -/
theorem wrap16_wrap16 (x : Int) : wrap16 (wrap16 x) = wrap16 x := by
  unfold wrap16
  omega

/-- Loop invariant of the flag loop: on success the logical-flag counter
`i` plus the flags produced reaches at least `numPoints` (the `% 65536` on
`i` can only lower it below the true count). -/
theorem readFlagsF_le (buf : List Nat) :
    ∀ (fuel pos i numPoints : Nat) (fl : List Nat) (p' : Nat),
      readFlagsF buf fuel pos i numPoints = some (fl, p') →
      numPoints ≤ i + fl.length := by
  intro fuel
  induction fuel with
  | zero =>
    intro pos i numPoints fl p' h
    unfold readFlagsF at h
    split at h
    · exact absurd h (by simp)
    · simp only [Option.some.injEq, Prod.mk.injEq] at h
      omega
  | succ k ih =>
    intro pos i numPoints fl p' h
    unfold readFlagsF at h
    split at h
    · cases hr : read_u8 buf pos with
      | none => rw [hr] at h; exact absurd h (by simp)
      | some v =>
        obtain ⟨f, p1⟩ := v
        rw [hr] at h
        simp only at h
        split at h
        · cases hn : read_u8 buf p1 with
          | none => rw [hn] at h; exact absurd h (by simp)
          | some w =>
            obtain ⟨n, p2⟩ := w
            rw [hn] at h
            simp only at h
            cases hrec : readFlagsF buf k p2 ((i + n + 1) % 65536) numPoints with
            | none => rw [hrec] at h; exact absurd h (by simp)
            | some pr =>
              obtain ⟨fs, pe⟩ := pr
              rw [hrec] at h
              simp only [Option.some.injEq, Prod.mk.injEq] at h
              have := ih p2 ((i + n + 1) % 65536) numPoints fs pe hrec
              have hm : (i + n + 1) % 65536 ≤ i + n + 1 := Nat.mod_le _ _
              have hlen : fl.length = 1 + n + fs.length := by
                rw [← h.1]
                simp only [List.length_cons, List.length_append,
                  List.length_replicate]
                omega
              omega
        · cases hrec : readFlagsF buf k p1 ((i + 1) % 65536) numPoints with
          | none => rw [hrec] at h; exact absurd h (by simp)
          | some pr =>
            obtain ⟨fs, pe⟩ := pr
            rw [hrec] at h
            simp only [Option.some.injEq, Prod.mk.injEq] at h
            have := ih p1 ((i + 1) % 65536) numPoints fs pe hrec
            have hm : (i + 1) % 65536 ≤ i + 1 := Nat.mod_le _ _
            have hlen : fl.length = 1 + fs.length := by
              rw [← h.1]
              simp only [List.length_cons]
              omega
            omega
    · simp only [Option.some.injEq, Prod.mk.injEq] at h
      omega

/-- The flag loop produces at least `numPoints` logical flags on success. -/
theorem readFlags_le (buf : List Nat) (pos numPoints : Nat) (fl : List Nat)
    (p' : Nat) (h : readFlags buf pos 0 numPoints = some (fl, p')) :
    numPoints ≤ fl.length := by
  have := readFlagsF_le buf (buf.length - pos + 1) pos 0 numPoints fl p' h
  omega

/-- One decoded coordinate per flag: `get_coordinates` yields exactly
`flags.len()` entries. -/
theorem get_coordinates_aux_length (buf : List Nat) (is_x : Bool) :
    ∀ (flags : List Nat) (pos : Nat) (prev : Int) (cs : List Int) (p' : Nat),
      get_coordinates_aux buf is_x flags pos prev = some (cs, p') →
      cs.length = flags.length := by
  intro flags
  induction flags with
  | nil =>
    intro pos prev cs p' h
    simp only [get_coordinates_aux, Option.some.injEq, Prod.mk.injEq] at h
    rw [← h.1]
    rfl
  | cons f rest ih =>
    intro pos prev cs p' h
    unfold get_coordinates_aux at h
    cases hbs : bit_is_set f (if is_x then 1 else 2) with
    | true =>
      simp only [hbs] at h
      cases hr : read_u8 buf pos with
      | none => rw [hr] at h; exact absurd h (by simp)
      | some v =>
        obtain ⟨off, p1⟩ := v
        rw [hr] at h
        simp only at h
        cases hrec : get_coordinates_aux buf is_x rest p1
            (wrap16 (prev + (if bit_is_set f (if is_x then 4 else 5) then 1 else -1) * off)) with
        | none => rw [hrec] at h; exact absurd h (by simp)
        | some pr =>
          obtain ⟨cs0, pe⟩ := pr
          rw [hrec] at h
          simp at h
          have := ih p1 _ cs0 pe hrec
          rw [← h.1]
          simp [this]
    | false =>
      cases hbp : bit_is_set f (if is_x then 4 else 5) with
      | true =>
        simp only [hbs, hbp] at h
        cases hrec : get_coordinates_aux buf is_x rest pos prev with
        | none => rw [hrec] at h; exact absurd h (by simp)
        | some pr =>
          obtain ⟨cs0, pe⟩ := pr
          rw [hrec] at h
          simp at h
          have := ih pos _ cs0 pe hrec
          rw [← h.1]
          simp [this]
      | false =>
        simp only [hbs, hbp] at h
        cases hr : read_i16 buf pos with
        | none => rw [hr] at h; exact absurd h (by simp)
        | some v =>
          obtain ⟨d, p1⟩ := v
          rw [hr] at h
          simp only at h
          cases hrec : get_coordinates_aux buf is_x rest p1 (wrap16 (prev + d)) with
          | none => rw [hrec] at h; exact absurd h (by simp)
          | some pr =>
            obtain ⟨cs0, pe⟩ := pr
            rw [hrec] at h
            simp at h
            have := ih p1 _ cs0 pe hrec
            rw [← h.1]
            simp [this]

/-- `get_coordinates` is the wrapped running sum of the per-point delta
stream: both walk the same bytes, and every produced coordinate is the
accumulated value so far. -/
theorem get_coordinates_aux_eq_deltas (buf : List Nat) (is_x : Bool) :
    ∀ (flags : List Nat) (pos : Nat) (prev : Int), wrap16 prev = prev →
      get_coordinates_aux buf is_x flags pos prev
        = (coordDeltas buf is_x flags pos).map
            (fun pr => (scanSum prev pr.1, pr.2)) := by
  intro flags
  induction flags with
  | nil => intro pos prev _; rfl
  | cons f rest ih =>
    intro pos prev hprev
    unfold get_coordinates_aux coordDeltas
    cases hbs : bit_is_set f (if is_x then 1 else 2) with
    | true =>
      simp only [hbs]
      cases hr : read_u8 buf pos with
      | none => rfl
      | some v =>
        obtain ⟨off, p1⟩ := v
        simp only
        rw [ih p1 _ (wrap16_wrap16 _)]
        cases hd : coordDeltas buf is_x rest p1 with
        | none => rfl
        | some pr =>
          obtain ⟨ds, p2⟩ := pr
          have hcd : wrap16 (prev + (if bit_is_set f (if is_x then 4 else 5) then 1 else -1) * (off : Int))
              = wrap16 (prev + (if bit_is_set f (if is_x then 4 else 5) then (off : Int) else -(off : Int))) := by
            cases bit_is_set f (if is_x then 4 else 5) <;> simp
          simp [scanSum, hcd]
    | false =>
      cases hbp : bit_is_set f (if is_x then 4 else 5) with
      | true =>
        simp only [Bool.false_eq_true, if_false, eq_self_iff_true, if_true]
        rw [ih pos prev hprev]
        cases hd : coordDeltas buf is_x rest pos with
        | none => rfl
        | some pr =>
          obtain ⟨ds, p2⟩ := pr
          simp [scanSum, hprev]
      | false =>
        simp only [Bool.false_eq_true, if_false]
        cases hr : read_i16 buf pos with
        | none => rfl
        | some v =>
          obtain ⟨d, p1⟩ := v
          simp only
          rw [ih p1 _ (wrap16_wrap16 _)]
          cases hd : coordDeltas buf is_x rest p1 with
          | none => rfl
          | some pr =>
            obtain ⟨ds, p2⟩ := pr
            simp [scanSum]

/-- A 16-bit read at or past the end of the buffer fails. -/
theorem read_u16_eq_none (buf : List Nat) (pos : Nat)
    (h : buf.length ≤ pos) : read_u16 buf pos = none := by
  unfold read_u16
  rw [List.getElem?_eq_none h]

/-- Decoding a glyph whose record starts at or past the end of the buffer
fails with the end-of-file error on the very first read. -/
theorem from_cursor_eof (buf : List Nat) (pos : Nat)
    (h : buf.length ≤ pos) : from_cursor buf pos = .err .eof := by
  unfold from_cursor read_i16
  rw [read_u16_eq_none buf pos h]

/-- An accepted glyph location never exceeds the buffer length. -/
theorem locateGlyph_le (buf : List Nat) (locaOff glyfOff : Nat) (tb : Bool)
    (i r : Nat) (h : locateGlyph buf locaOff glyfOff tb i = .ok r) :
    r ≤ buf.length := by
  unfold locateGlyph at h
  cases hro : resolvedOffset buf locaOff glyfOff tb i with
  | none => rw [hro] at h; exact absurd h (by simp)
  | some off =>
    rw [hro] at h
    simp only at h
    split at h
    · exact absurd h (by simp)
    · rename_i hle
      simp only [RResult.ok.injEq] at h
      omega

/-- Every location stored by the glyph-location loop is within the
buffer. -/
theorem glyphLocationsAux_le (buf : List Nat) (locaOff glyfOff : Nat)
    (tb : Bool) :
    ∀ (k i : Nat) (locs : List Nat),
      glyphLocationsAux buf locaOff glyfOff tb k i = .ok locs →
      ∀ l ∈ locs, l ≤ buf.length := by
  intro k
  induction k with
  | zero =>
    intro i locs h l hl
    simp only [glyphLocationsAux, RResult.ok.injEq] at h
    rw [← h] at hl
    simp at hl
  | succ k ih =>
    intro i locs h l hl
    unfold glyphLocationsAux at h
    cases hg : locateGlyph buf locaOff glyfOff tb i with
    | err e => rw [hg] at h; exact absurd h (by simp)
    | panicked => rw [hg] at h; exact absurd h (by simp)
    | ok off =>
      rw [hg] at h
      simp only at h
      cases hrec : glyphLocationsAux buf locaOff glyfOff tb k (i + 1) with
      | err e => rw [hrec] at h; exact absurd h (by simp)
      | panicked => rw [hrec] at h; exact absurd h (by simp)
      | ok rest =>
        rw [hrec] at h
        simp only [RResult.ok.injEq] at h
        rw [← h] at hl
        rcases List.mem_cons.mp hl with h1 | h2
        · rw [h1]; exact locateGlyph_le buf locaOff glyfOff tb i off hg
        · exact ih (i + 1) rest hrec l h2

/-- C1: for every simple glyph and each axis, the decoded coordinate of
point `k` is the running cumulative sum (with the source's `i16`
wrap-around) of the per-point deltas starting from 0, where each delta is
`+magnitude` (one unsigned byte) when the short bit and the sign bit are
set, `-magnitude` when the short bit is set and the sign bit clear, `0`
when the short bit is clear and the same bit set, and a signed 16-bit
big-endian value when both are clear (x uses flag bits 1 and 4, y bits 2
and 5); in particular x-deltas `[10, -5, 0]` decode to absolute
x-coordinates `[10, 5, 5]`. -/
theorem c1_coordinate_accumulation :
    (∀ (buf : List Nat) (pos : Nat) (flags : List Nat) (is_x : Bool),
        get_coordinates buf pos flags is_x
          = (coordDeltas buf is_x flags pos).map
              (fun pr => (scanSum 0 pr.1, pr.2)))
    ∧ get_coordinates [10, 5] 0 [18, 2, 16] true = some ([10, 5, 5], 2) := by
  constructor
  · intro buf pos flags is_x
    exact get_coordinates_aux_eq_deltas buf is_x flags pos 0 (by decide)
  · decide

set_option maxRecDepth 40000 in
/-- C2 (amended): flag run-length expansion reads flag bytes until the
running logical-flag count reaches `numberOfPoints`: a flag byte `F` with
bit 3 set followed by a count byte `n` contributes exactly `n + 1`
identical copies of `F` (including `n = 0` and `n = 255`), a flag byte
with bit 3 clear contributes exactly one copy, and the resulting flags
sequence has at least `numberOfPoints` entries — it can exceed
`numberOfPoints` when a repeat run crosses the boundary, since the count
is only checked before a flag byte is read. -/
theorem c2_flag_expansion :
    (∀ (buf : List Nat) (pos numPoints : Nat) (fl : List Nat) (p' : Nat),
        readFlags buf pos 0 numPoints = some (fl, p') →
        numPoints ≤ fl.length)
    ∧ readFlags [9, 0] 0 0 1 = some ([9], 2)
    ∧ readFlags [9, 255] 0 0 256 = some (List.replicate 256 9, 2) := by
  refine ⟨?_, by decide, by decide⟩
  intro buf pos numPoints fl p' h
  exact readFlags_le buf pos numPoints fl p' h

/-- Witness for C2: a concrete successful flag expansion has at least
`numberOfPoints` entries. -/
theorem c2_flag_expansion_witness : (1 : Nat) ≤ ([9, 9] : List Nat).length :=
  c2_flag_expansion.1 [9, 1] 0 1 [9, 9] 2 (by decide)

/-- Counterexample to C2 as stated: with `numberOfPoints = 1`, the flag
byte `0x09` (repeat bit set) followed by count `1` expands to two logical
flags, so the resulting sequence does not have exactly `numberOfPoints`
entries. -/
theorem c2_flag_overshoot :
    readFlags [9, 1] 0 0 1 = some ([9, 9], 2)
    ∧ ([9, 9] : List Nat).length ≠ 1 := by
  decide

/-- C3 (amended): for every glyph that decodes successfully as simple,
`contour_end_indices` is non-empty and the x- and y-coordinate lists have
one common length, which is at least `(last + 1) % 2^16` for the last
contour-end index; the decoder performs no further validation, so the
indices need not be strictly increasing and the point count can exceed
`contour_end_indices.last() + 1`. -/
theorem c3_simple_glyph_invariants :
    ∀ (buf : List Nat) (pos : Nat) (gd : GlyphData) (p' : Nat),
      from_cursor buf pos = .ok (gd, p') → gd.is_simple = true →
      gd.contour_end_indices ≠ []
      ∧ gd.x_coords.length = gd.y_coords.length
      ∧ ∀ last, gd.contour_end_indices.getLast? = some last →
          (last + 1) % 65536 ≤ gd.x_coords.length := by
  intro buf pos gd p' h hsimple
  unfold from_cursor at h
  cases h1 : read_i16 buf pos with
  | none => rw [h1] at h; exact absurd h (by simp)
  | some v =>
    obtain ⟨n, p1⟩ := v
    rw [h1] at h
    simp only at h
    split at h
    · cases h2 : readContourEnds buf (p1 + 8) n.toNat with
      | none => rw [h2] at h; exact absurd h (by simp)
      | some pr2 =>
        obtain ⟨ends, p3⟩ := pr2
        rw [h2] at h
        simp only at h
        cases h3 : ends.getLast? with
        | none => rw [h3] at h; exact absurd h (by simp)
        | some last =>
          rw [h3] at h
          simp only at h
          cases h4 : skipInstructions buf p3 with
          | none => rw [h4] at h; exact absurd h (by simp)
          | some p4 =>
            rw [h4] at h
            simp only at h
            cases h5 : readFlags buf p4 0 ((last + 1) % 65536) with
            | none => rw [h5] at h; exact absurd h (by simp)
            | some pr5 =>
              obtain ⟨flags, p5⟩ := pr5
              rw [h5] at h
              simp only at h
              cases h6 : get_coordinates buf p5 flags true with
              | none => rw [h6] at h; exact absurd h (by simp)
              | some pr6 =>
                obtain ⟨xs, p6⟩ := pr6
                rw [h6] at h
                simp only at h
                cases h7 : get_coordinates buf p6 flags false with
                | none => rw [h7] at h; exact absurd h (by simp)
                | some pr7 =>
                  obtain ⟨ys, p7⟩ := pr7
                  rw [h7] at h
                  simp only [RResult.ok.injEq, Prod.mk.injEq] at h
                  obtain ⟨hgd, hp⟩ := h
                  subst hgd
                  dsimp only
                  have hx : xs.length = flags.length :=
                    get_coordinates_aux_length buf true flags p5 0 xs p6 h6
                  have hy : ys.length = flags.length :=
                    get_coordinates_aux_length buf false flags p6 0 ys p7 h7
                  refine ⟨?_, ?_, ?_⟩
                  · intro he
                    rw [he] at h3
                    simp at h3
                  · rw [hx, hy]
                  · intro l hl
                    rw [h3] at hl
                    simp only [Option.some.injEq] at hl
                    subst hl
                    have := readFlags_le buf p4 ((last + 1) % 65536) flags p5 h5
                    rw [hx]
                    exact this
    · simp only [RResult.ok.injEq, Prod.mk.injEq] at h
      obtain ⟨hgd, _⟩ := h
      rw [← hgd] at hsimple
      simp at hsimple

/-- Witness for C3: a minimal one-contour, one-point glyph decodes
successfully and satisfies the amended invariants. -/
theorem c3_simple_glyph_invariants_witness :
    ([0] : List Nat) ≠ []
    ∧ ([0] : List Int).length = ([0] : List Int).length
    ∧ ∀ last, ([0] : List Nat).getLast? = some last →
        (last + 1) % 65536 ≤ ([0] : List Int).length :=
  c3_simple_glyph_invariants [0, 1, 0, 0, 0, 0, 0, 0, 0, 0, 0, 0, 0, 0, 48] 0
    ⟨[0], [0], [0], true⟩ 15 (by decide) rfl

/-- Counterexample to C3 as stated: the glyph record with contour-end
indices `[5, 3]` (not strictly increasing) and a flag repeat run that
overshoots `numberOfPoints = 4` decodes successfully, with five points
instead of `last + 1 = 4`. -/
theorem c3_invariant_violation :
    from_cursor [0, 2, 0, 0, 0, 0, 0, 0, 0, 0, 0, 5, 0, 3, 0, 0, 56, 4] 0 =
      .ok ({ x_coords := [0, 0, 0, 0, 0], y_coords := [0, 0, 0, 0, 0],
             contour_end_indices := [5, 3], is_simple := true }, 18)
    ∧ ¬ List.Pairwise (· < ·) [5, 3]
    ∧ ([0, 0, 0, 0, 0] : List Int).length ≠ 3 + 1 := by
  decide

/-- C4: for every glyph record whose leading `numberOfContours` is
negative, the decoder returns the compound sentinel (`is_simple = false`,
all lists empty) having consumed only the two length bytes and the 8-byte
bounding-box skip — the result does not depend on any contour-boundary,
flag or point bytes of the stream. -/
theorem c4_compound_short_circuit :
    ∀ (buf : List Nat) (pos : Nat) (v : Int) (p1 : Nat),
      read_i16 buf pos = some (v, p1) → v < 0 →
      from_cursor buf pos =
        .ok ({ x_coords := [], y_coords := [], contour_end_indices := [],
               is_simple := false }, p1 + 8) := by
  intro buf pos v p1 h hv
  unfold from_cursor
  rw [h]
  simp only
  rw [if_neg (by omega)]

/-- Witness for C4: `numberOfContours = -1` on a two-byte record yields the
compound sentinel at cursor position 10. -/
theorem c4_compound_short_circuit_witness :
    from_cursor [255, 255] 0 =
      .ok ({ x_coords := [], y_coords := [], contour_end_indices := [],
             is_simple := false }, 10) :=
  c4_compound_short_circuit [255, 255] 0 (-1) 2 (by decide) (by decide)

/-- C5: whenever the resolved absolute glyph offset (glyf offset plus the
loca entry value, doubled in the 2-byte format, with `u32` wrap) exceeds
the buffer length, glyph location fails with `GlyphOffsetOutOfRange`; an
accepted location never exceeds the buffer length, and neither does any
location stored by the whole location loop, so no out-of-range access can
follow. -/
theorem c5_glyph_offset_bounds :
    (∀ (buf : List Nat) (locaOff glyfOff : Nat) (tb : Bool) (i off : Nat),
        resolvedOffset buf locaOff glyfOff tb i = some off →
        buf.length < off →
        locateGlyph buf locaOff glyfOff tb i = .err .glyphOffsetOutOfRange)
    ∧ (∀ (buf : List Nat) (locaOff glyfOff : Nat) (tb : Bool) (i r : Nat),
        locateGlyph buf locaOff glyfOff tb i = .ok r → r ≤ buf.length)
    ∧ (∀ (buf : List Nat) (locaOff glyfOff : Nat) (tb : Bool)
          (n : Nat) (locs : List Nat),
        glyphLocations buf locaOff glyfOff tb n = .ok locs →
        ∀ l ∈ locs, l ≤ buf.length) := by
  refine ⟨?_, ?_, ?_⟩
  · intro buf locaOff glyfOff tb i off h hlt
    unfold locateGlyph
    rw [h]
    simp only
    rw [if_pos hlt]
  · intro buf locaOff glyfOff tb i r h
    exact locateGlyph_le buf locaOff glyfOff tb i r h
  · intro buf locaOff glyfOff tb n locs h
    exact glyphLocationsAux_le buf locaOff glyfOff tb n 0 locs h

/-- Witness for C5: a 2-byte buffer whose loca entry resolves to offset 20
is rejected with `GlyphOffsetOutOfRange`. -/
theorem c5_glyph_offset_bounds_witness :
    locateGlyph [0, 10] 0 0 true 0 = .err .glyphOffsetOutOfRange :=
  c5_glyph_offset_bounds.1 [0, 10] 0 0 true 0 20 (by decide) (by decide)

/-- C6: a glyph record with `numberOfContours = 0` makes the decoder panic
(`contour_end_indices.last().unwrap()` on an empty vector) instead of
returning a `MalformedGlyph` error. -/
theorem c6_empty_contours_panic :
    from_cursor [0, 0, 0, 0, 0, 0, 0, 0, 0, 0] 0 = .panicked := by
  decide

/-- C7: a font buffer whose parsed table directory is empty (numTables = 0)
makes `Font::read_truetype` panic at `tables.get("maxp").unwrap()` instead
of returning a `MissingTable` error. -/
theorem c7_missing_table_panic :
    read_truetype [0, 0, 0, 0, 0, 0] = .panicked := by
  decide

set_option maxRecDepth 40000 in
/-- C8: on a one-glyph font whose single glyph record fails to decode, the
constructed `Font` has an empty glyph list (length 0) while `numGlyphs`
read from `maxp` is 1 — the failed glyph is silently dropped and no
per-glyph error list is returned. -/
theorem c8_failed_glyph_dropped :
    glyphCountOf (read_truetype fontBufC8) = some 0
    ∧ read_u16 fontBufC8 80 = some (1, 82) := by
  decide

/-- C9 (amended): after the contour end indices the decoder reads the
instruction length as a signed 16-bit big-endian value: raw values
`0..32767` advance the cursor forward by exactly that many bytes, while
raw values `32768..65535` move it backward by `65536 - value` bytes, and
when that would go before the buffer start the failed seek is silently
ignored and the cursor stays just after the length field. -/
theorem c9_instruction_skip :
    ∀ (buf : List Nat) (pos : Nat) (v p1 : Nat),
      read_u16 buf pos = some (v, p1) →
      skipInstructions buf pos =
        some (if v < 32768 then p1 + v
              else if p1 + v < 65536 then p1 else p1 + v - 65536) := by
  intro buf pos v p1 h
  unfold skipInstructions read_i16 toInt16
  rw [h]
  simp only [Option.some.injEq]
  split_ifs <;> omega

/-- Witness for C9: instruction length 3 read at position 0 leaves the
cursor at position 5. -/
theorem c9_instruction_skip_witness : skipInstructions [0, 3] 0 = some 5 := by
  have h := c9_instruction_skip [0, 3] 0 3 2 (by decide)
  simpa using h

/-- Counterexample to C9 as stated: instruction length bytes `0xFF 0xFF`
(unsigned value 65535) do not advance the cursor to `2 + 65535`; the
decoder moves it backward to position 1. -/
theorem c9_backward_seek :
    skipInstructions [255, 255] 0 = some 1
    ∧ read_u16 [255, 255] 0 = some (65535, 2)
    ∧ (1 : Nat) ≠ 2 + 65535 := by
  decide

/-- C10: a glyph whose resolved absolute offset equals the buffer length
exactly is accepted by the bounds validation (only strictly greater
offsets are rejected), and decoding such a glyph then fails with an
end-of-file read error rather than at location time. -/
theorem c10_offset_at_end_accepted :
    ∀ (buf : List Nat) (locaOff glyfOff : Nat) (tb : Bool) (i : Nat),
      resolvedOffset buf locaOff glyfOff tb i = some buf.length →
      locateGlyph buf locaOff glyfOff tb i = .ok buf.length
      ∧ from_cursor buf buf.length = .err .eof := by
  intro buf locaOff glyfOff tb i h
  constructor
  · unfold locateGlyph
    rw [h]
    simp
  · exact from_cursor_eof buf buf.length le_rfl

/-- Witness for C10: a loca entry of 1 (doubled to 2) on a 2-byte buffer is
accepted and the decode at position 2 fails with the end-of-file error. -/
theorem c10_offset_at_end_accepted_witness :
    locateGlyph [0, 1] 0 0 true 0 = .ok 2
    ∧ from_cursor [0, 1] 2 = .err .eof :=
  c10_offset_at_end_accepted [0, 1] 0 0 true 0 (by decide)
